import Mathlib

set_option maxHeartbeats 1000000

/-!
Verification development for the iwf-web execution-history reconstruction engine
(`src/app/api/v1/workflow/show/route.ts`) and its status mapper
(`src/app/api/v1/workflow/utils.ts`), shallowly embedded in Lean.
-/

namespace IwfWeb

/-- Execution options blob attached to a workflow state (`WorkflowStateOptions` in the
TypeScript API types). Its contents are opaque to the reconstruction pass, so it is
modelled as an uninterpreted string payload. -/
structure WorkflowStateOptions where
  blob : String
deriving DecidableEq

/-- `IndexAndStateOption` from `src/app/api/v1/workflow/show/route.ts` (lines 75-78):
one pending origin for a state id, holding the index of the iWF history event that
decided to transition to this state (`-1` for the starting state) together with the
optional state options that applied. -/
structure IndexAndStateOption where
  index : Int
  option : Option WorkflowStateOptions
deriving DecidableEq

/-- The decoded `InterpreterWorkflowInput` extracted from the first raw history event
(route.ts lines 147-150): the declared start state, its options, and the rest of the
workflow input payload (uninterpreted here). -/
structure InterpreterWorkflowInput where
  startStateId : String
  stateOptions : Option WorkflowStateOptions
  workflowInputBlob : String
deriving DecidableEq

/-- The `activityType.name` attached to an `activityTaskScheduled` raw event. The
reconstruction pass dispatches on the two iWF activity type names and ignores the
rest (route.ts lines 183, 214, 263-265). -/
inductive ActivityType where
  | stateApiWaitUntil
  | stateApiExecute
  | otherType (name : String)
deriving DecidableEq

/-- The fields of an `activityTaskScheduledEventAttributes` raw event that the pass
reads (route.ts lines 179-186, 216-217): the activity id, the activity type name, the
event time in seconds, and the already-decoded activity input request carrying
`workflowStateId`, `context.stateExecutionId` and `stateInput`. Payload decoding
(`arrayFromPayloads`) is modelled as having succeeded. -/
structure ScheduledAttrs where
  activityId : String
  activityType : ActivityType
  eventTimeSeconds : Int
  workflowStateId : String
  stateExecutionId : String
  stateInput : String
deriving DecidableEq

/-- One raw Temporal history event, restricted to the attribute families the loop in
route.ts lines 176-280 inspects. Events carrying none of the inspected attribute
families are modelled by `otherEvent`. -/
inductive RawEvent where
  | workflowExecutionStarted (input : InterpreterWorkflowInput)
  | activityTaskScheduled (attrs : ScheduledAttrs)
  | activityTaskCompleted (activityId : String) (timeSeconds : Int)
  | activityTaskFailed (activityId : String) (timeSeconds : Int)
  | workflowExecutionSignaled (timeSeconds : Int)
  | workflowExecutionCompleted (timeSeconds : Int)
  | workflowExecutionFailed (timeSeconds : Int)
  | otherEvent
deriving DecidableEq

/-- `StateWaitUntilDetails` as built at route.ts lines 196-205. `completedTime` is the
optional completion timestamp the API type carries; the handler never writes it. -/
structure StateWaitUntilDetails where
  stateExecutionId : String
  stateId : String
  input : String
  fromEventId : Int
  stateOptions : Option WorkflowStateOptions
  activityId : String
  firstAttemptStartedTimestamp : Int
  completedTime : Option Int
deriving DecidableEq

/-- `StateExecuteDetails` as built at route.ts lines 244-252. `completedTime` is the
optional completion timestamp the API type carries; the handler never writes it. -/
structure StateExecuteDetails where
  stateExecutionId : String
  stateId : String
  input : String
  fromEventId : Int
  stateOptions : Option WorkflowStateOptions
  activityId : String
  firstAttemptStartedTimestamp : Int
  completedTime : Option Int
deriving DecidableEq

/-- `IwfHistoryEvent`: one record of the output trace, tagged by `eventType`
(`"StateWaitUntil"` or `"StateExecute"`), route.ts lines 206-209 and 255-258. -/
inductive IwfHistoryEvent where
  | stateWaitUntil (d : StateWaitUntilDetails)
  | stateExecute (d : StateExecuteDetails)
deriving DecidableEq

/-- A thrown JavaScript error. The reconstruction loop has no typed error values of
its own: its failures are runtime `TypeError`s from reading a property of
`undefined`, caught by the surrounding try/catch (route.ts lines 297-306). -/
inductive JsError where
  | typeError (msg : String)
deriving DecidableEq

/-- A JavaScript `Map` object as the handler uses it. `entries` are the real map
entries, written by `Map.prototype.set` and read by `get`/`has`/`delete`. `props` are
ordinary object properties: the handler also writes to its maps with bracket
assignment (`m[k] = v`, route.ts lines 211-212 and 261), and in JavaScript that
creates a plain property on the Map object which `get`/`has` never see. Both sides
are modelled so the embedding reproduces that behaviour exactly. -/
structure JsMap (α : Type) where
  entries : String → Option α
  props : String → Option α

/-- `new Map()` (or a fresh map built only from a literal, before any writes). -/
def JsMap.emptyMap {α : Type} : JsMap α :=
  { entries := fun _ => none, props := fun _ => none }

/-- `Map.prototype.get`. -/
def JsMap.mapGet {α : Type} (m : JsMap α) (k : String) : Option α :=
  m.entries k

/-- `Map.prototype.has`. -/
def JsMap.mapHas {α : Type} (m : JsMap α) (k : String) : Bool :=
  (m.entries k).isSome

/-- `Map.prototype.set`. -/
def JsMap.mapSet {α : Type} (m : JsMap α) (k : String) (v : α) : JsMap α :=
  { m with entries := fun q => if q = k then some v else m.entries q }

/-- `Map.prototype.delete`. -/
def JsMap.mapDelete {α : Type} (m : JsMap α) (k : String) : JsMap α :=
  { m with entries := fun q => if q = k then none else m.entries q }

/-- Bracket assignment `m[k] = v` on a Map object: sets an ordinary object property,
not a Map entry, so later `mapGet`/`mapHas` calls do not observe it. -/
def JsMap.propAssign {α : Type} (m : JsMap α) (k : String) (v : α) : JsMap α :=
  { m with props := fun q => if q = k then some v else m.props q }

/-- The mutable correlation state of one reconstruction pass (route.ts lines
154-173): `fromStateLookup` (stateId to the FIFO list of pending origins),
`historyActivityIdLookup` (activityId to trace index), `stateExecutionIdToWaitUntilIndex`
(stateExecutionId to the index of its waitUntil trace record), and the output
`historyEvents` sequence. -/
structure RecState where
  fromStateLookup : JsMap (List IndexAndStateOption)
  historyActivityIdLookup : JsMap Nat
  stateExecutionIdToWaitUntilIndex : JsMap Nat
  historyEvents : List IwfHistoryEvent

/-- The state at the start of the pass (route.ts lines 154-173): `fromStateLookup`
seeded with the start state mapped to the single origin `index = -1` carrying the
input's state options; the other two maps empty; no trace records yet. -/
def initialState (input : InterpreterWorkflowInput) : RecState :=
  { fromStateLookup :=
      JsMap.emptyMap.mapSet input.startStateId [⟨-1, input.stateOptions⟩]
  , historyActivityIdLookup := JsMap.emptyMap
  , stateExecutionIdToWaitUntilIndex := JsMap.emptyMap
  , historyEvents := [] }

/-- The `StateApiWaitUntil` branch of the scheduled-event dispatch (route.ts lines
183-213). `fromStateLookup.get` returning `undefined` makes the subsequent indexing
throw; likewise an empty queue makes `lookup[0]` yield `undefined` and the later
`from.index` read throw. Otherwise the head origin is consumed (FIFO `shift`), the
emptied queue entry is deleted, a `StateWaitUntil` record is appended, and the two
index maps receive bracket assignments (object properties, not Map entries). -/
def processScheduledWaitUntil (st : RecState) (attrs : ScheduledAttrs) :
    Except JsError RecState :=
  match st.fromStateLookup.mapGet attrs.workflowStateId with
  | none =>
      Except.error (JsError.typeError
        "Cannot read properties of undefined (reading 0)")
  | some lookup =>
    match lookup with
    | [] =>
        Except.error (JsError.typeError
          "Cannot read properties of undefined (reading index)")
    | fr :: rest =>
      let fromStateLookup1 :=
        if rest.length = 0 then
          st.fromStateLookup.mapDelete attrs.workflowStateId
        else
          st.fromStateLookup.mapSet attrs.workflowStateId rest
      let waitUntilDetail : StateWaitUntilDetails :=
        { stateExecutionId := attrs.stateExecutionId
        , stateId := attrs.workflowStateId
        , input := attrs.stateInput
        , fromEventId := fr.index
        , stateOptions := fr.option
        , activityId := attrs.activityId
        , firstAttemptStartedTimestamp := attrs.eventTimeSeconds
        , completedTime := none }
      let eventIndex := st.historyEvents.length
      Except.ok
        { st with
          fromStateLookup := fromStateLookup1
        , historyActivityIdLookup :=
            st.historyActivityIdLookup.propAssign attrs.activityId eventIndex
        , stateExecutionIdToWaitUntilIndex :=
            st.stateExecutionIdToWaitUntilIndex.propAssign
              attrs.stateExecutionId eventIndex
        , historyEvents :=
            st.historyEvents ++ [IwfHistoryEvent.stateWaitUntil waitUntilDetail] }

/-- The optional-chaining access `waitUntilEvent.stateWaitUntil?.stateOptions`
(route.ts line 228): the options of a `StateWaitUntil` record, `undefined` when the
record is of the other variant. -/
def waitOptionsOf : IwfHistoryEvent → Option WorkflowStateOptions
  | IwfHistoryEvent.stateWaitUntil d => d.stateOptions
  | IwfHistoryEvent.stateExecute _ => none

/-- The `StateApiExecute` branch of the scheduled-event dispatch (route.ts lines
214-262). The code first asks `stateExecutionIdToWaitUntilIndex.has(stateExecutionId)`
(`has` is true exactly when `get` returns an entry, so the branch is modelled by
matching on `mapGet`); on a hit, the referenced waitUntil record supplies
`fromEventId` and the options (an out-of-range index would make the property read on
`undefined` throw). Otherwise the pending-origin queue is consumed just as in the
waitUntil branch. Either way a `StateExecute` record is appended and
`historyActivityIdLookup` receives a bracket assignment. -/
def processScheduledExecute (st : RecState) (attrs : ScheduledAttrs) :
    Except JsError RecState :=
  match st.stateExecutionIdToWaitUntilIndex.mapGet attrs.stateExecutionId with
  | some fromEvent =>
    match st.historyEvents[fromEvent]? with
    | none =>
        Except.error (JsError.typeError
          "Cannot read properties of undefined (reading stateWaitUntil)")
    | some waitUntilEvent =>
      let stateOption : Option WorkflowStateOptions := waitOptionsOf waitUntilEvent
      let executeDetail : StateExecuteDetails :=
        { stateExecutionId := attrs.stateExecutionId
        , stateId := attrs.workflowStateId
        , input := attrs.stateInput
        , fromEventId := Int.ofNat fromEvent
        , stateOptions := stateOption
        , activityId := attrs.activityId
        , firstAttemptStartedTimestamp := attrs.eventTimeSeconds
        , completedTime := none }
      let eventIndex := st.historyEvents.length
      Except.ok
        { st with
          historyActivityIdLookup :=
            st.historyActivityIdLookup.propAssign attrs.activityId eventIndex
        , historyEvents :=
            st.historyEvents ++ [IwfHistoryEvent.stateExecute executeDetail] }
  | none =>
    match st.fromStateLookup.mapGet attrs.workflowStateId with
    | none =>
        Except.error (JsError.typeError
          "Cannot read properties of undefined (reading 0)")
    | some lookup =>
      match lookup with
      | [] =>
          Except.error (JsError.typeError
            "Cannot read properties of undefined (reading index)")
      | fr :: rest =>
        let fromStateLookup1 :=
          if rest.length = 0 then
            st.fromStateLookup.mapDelete attrs.workflowStateId
          else
            st.fromStateLookup.mapSet attrs.workflowStateId rest
        let executeDetail : StateExecuteDetails :=
          { stateExecutionId := attrs.stateExecutionId
          , stateId := attrs.workflowStateId
          , input := attrs.stateInput
          , fromEventId := fr.index
          , stateOptions := fr.option
          , activityId := attrs.activityId
          , firstAttemptStartedTimestamp := attrs.eventTimeSeconds
          , completedTime := none }
        let eventIndex := st.historyEvents.length
        Except.ok
          { st with
            fromStateLookup := fromStateLookup1
          , historyActivityIdLookup :=
              st.historyActivityIdLookup.propAssign attrs.activityId eventIndex
          , historyEvents :=
              st.historyEvents ++ [IwfHistoryEvent.stateExecute executeDetail] }

/-- Dispatch of one raw event inside the loop of route.ts lines 176-280. Scheduled
events are dispatched on the activity type name; every other inspected event family
(`activityTaskCompleted`, `activityTaskFailed`, `workflowExecutionSignaled`,
`workflowExecutionCompleted`, `workflowExecutionFailed`) only logs and leaves the
state untouched; events matching none of the inspected families fall through with no
effect. -/
def processEvent (st : RecState) (e : RawEvent) : Except JsError RecState :=
  match e with
  | RawEvent.activityTaskScheduled attrs =>
    match attrs.activityType with
    | ActivityType.stateApiWaitUntil => processScheduledWaitUntil st attrs
    | ActivityType.stateApiExecute => processScheduledExecute st attrs
    | ActivityType.otherType _ => Except.ok st
  | RawEvent.activityTaskCompleted _ _ => Except.ok st
  | RawEvent.activityTaskFailed _ _ => Except.ok st
  | RawEvent.workflowExecutionSignaled _ => Except.ok st
  | RawEvent.workflowExecutionCompleted _ => Except.ok st
  | RawEvent.workflowExecutionFailed _ => Except.ok st
  | RawEvent.workflowExecutionStarted _ => Except.ok st
  | RawEvent.otherEvent => Except.ok st

/-- The forward pass over the raw events after index 0 (route.ts lines 176-280). A
thrown error aborts the remainder of the pass. -/
def processEvents (st : RecState) : List RawEvent → Except JsError RecState
  | [] => Except.ok st
  | e :: rest =>
    match processEvent st e with
    | Except.ok st1 => processEvents st1 rest
    | Except.error err => Except.error err

/-- Full reconstruction of `historyEvents` from a raw history whose first event is
the workflow-start event (route.ts lines 147-176): decode the start input, seed the
correlation state, then run the pass over the remaining events. A history not
starting with the start event makes the attribute access on line 147 throw. -/
def reconstructFromHistory (events : List RawEvent) :
    Except JsError (List IwfHistoryEvent) :=
  match events with
  | RawEvent.workflowExecutionStarted input :: rest =>
    (processEvents (initialState input) rest).map (fun st => st.historyEvents)
  | _ =>
    Except.error (JsError.typeError
      "Cannot read properties of undefined (reading input)")

/-- The closed set of API workflow status labels (`WorkflowStatus` in the API
types), the codomain of `mapTemporalStatus` in `src/app/api/v1/workflow/utils.ts`. -/
inductive WorkflowStatus where
  | RUNNING
  | COMPLETED
  | FAILED
  | CANCELED
  | TERMINATED
  | CONTINUED_AS_NEW
  | TIMEOUT
deriving DecidableEq

/-- Whether the character list `p` occurs at the start of `s` (character-wise). -/
def startsWithChars : List Char → List Char → Bool
  | [], _ => true
  | _ :: _, [] => false
  | p :: ps, c :: cs => p = c && startsWithChars ps cs

/-- Worker for `replaceFirst`: scan the subject, and at the first position where the
pattern occurs, splice in the replacement and stop. -/
def replaceFirstChars (pat repl : List Char) : List Char → List Char
  | [] => []
  | c :: rest =>
    if startsWithChars pat (c :: rest) then
      repl ++ (c :: rest).drop pat.length
    else
      c :: replaceFirstChars pat repl rest

/-- JavaScript `String.prototype.replace` with a string pattern: replaces only the
first occurrence of the pattern (utils.ts line 18 relies on this form). -/
def replaceFirst (s pat repl : String) : String :=
  String.mk (replaceFirstChars pat.data repl.data s.data)

/-- JavaScript `String.prototype.toUpperCase` (ASCII range, which covers every
status code the mapper inspects). -/
def jsToUpperCase (s : String) : String :=
  String.mk (s.data.map Char.toUpper)

/-- JavaScript `String.prototype.trim`: strip leading and trailing whitespace. -/
def jsTrim (s : String) : String :=
  String.mk
    (((s.data.dropWhile Char.isWhitespace).reverse.dropWhile
        Char.isWhitespace).reverse)

/-- The normalization performed by `mapTemporalStatus` (utils.ts lines 15-18):
uppercase, trim, then strip the first occurrence of the
`WORKFLOW_EXECUTION_STATUS_` prefix. -/
def normalizeStatus (status : String) : String :=
  replaceFirst (jsTrim (jsToUpperCase status)) "WORKFLOW_EXECUTION_STATUS_" ""

/-- `mapTemporalStatus` (utils.ts lines 13-52): normalize the input, then switch over
the fixed set of symbolic names and numeric codes; the default branch throws
(modelled as `Except.error`). -/
def mapTemporalStatus (status : String) : Except String WorkflowStatus :=
  if normalizeStatus status = "RUNNING" then Except.ok WorkflowStatus.RUNNING
  else if normalizeStatus status = "COMPLETED" then Except.ok WorkflowStatus.COMPLETED
  else if normalizeStatus status = "FAILED" then Except.ok WorkflowStatus.FAILED
  else if normalizeStatus status = "CANCELED" then Except.ok WorkflowStatus.CANCELED
  else if normalizeStatus status = "TERMINATED" then Except.ok WorkflowStatus.TERMINATED
  else if normalizeStatus status = "CONTINUED_AS_NEW" then Except.ok WorkflowStatus.CONTINUED_AS_NEW
  else if normalizeStatus status = "TIMED_OUT" then Except.ok WorkflowStatus.TIMEOUT
  else if normalizeStatus status = "1" then Except.ok WorkflowStatus.RUNNING
  else if normalizeStatus status = "2" then Except.ok WorkflowStatus.COMPLETED
  else if normalizeStatus status = "3" then Except.ok WorkflowStatus.FAILED
  else if normalizeStatus status = "4" then Except.ok WorkflowStatus.CANCELED
  else if normalizeStatus status = "5" then Except.ok WorkflowStatus.TERMINATED
  else if normalizeStatus status = "6" then Except.ok WorkflowStatus.CONTINUED_AS_NEW
  else if normalizeStatus status = "7" then Except.ok WorkflowStatus.TIMEOUT
  else
    Except.error
      ("Unknown workflow status: " ++ status ++ " (normalized: "
        ++ normalizeStatus status ++ ")")

/-- The switch cases of `mapTemporalStatus` that map to a label: the seven symbolic
names plus the numeric codes 1-7 (utils.ts lines 20-48). Any input whose
normalization is outside this list reaches the throwing default branch. -/
def acceptedCodes : List String :=
  ["RUNNING", "COMPLETED", "FAILED", "CANCELED", "TERMINATED",
   "CONTINUED_AS_NEW", "TIMED_OUT", "1", "2", "3", "4", "5", "6", "7"]

/-- The workflow metadata the handler reads from `describeWorkflowExecution`
(route.ts lines 104-140), already decoded: the `IwfWorkflowType` search attribute
when present (its absence makes the handler reject the workflow), the start time in
seconds (0 when absent), and the status code as the string the handler passes to
`mapTemporalStatus` (`none` models a falsy status, which short-circuits to
`undefined`). -/
structure WorkflowMeta where
  iwfWorkflowType : Option String
  startTimeSeconds : Int
  statusCode : Option String
deriving DecidableEq

/-- The success payload `WorkflowShowResponse` (route.ts lines 285-293). -/
structure WorkflowShowResponse where
  workflowStartedTimestamp : Int
  workflowType : String
  status : Option WorkflowStatus
  input : InterpreterWorkflowInput
  historyEvents : List IwfHistoryEvent
deriving DecidableEq

/-- The HTTP outcome of `handleWorkflowShowRequest`: a 200 JSON response, or an
error JSON response with an HTTP status code, a detail message and an error type. -/
inductive ApiResult where
  | success (status : Nat) (resp : WorkflowShowResponse)
  | failure (status : Nat) (detail : String) (errorType : String)
deriving DecidableEq

/-- `handleWorkflowShowRequest` (route.ts lines 81-307) after the two network calls
have resolved, taking the decoded workflow metadata and the fetched raw history.
A missing `IwfWorkflowType` attribute returns the 400 "Not an iWF workflow
execution" response (lines 121-127). Any error thrown while decoding the start
event, running the pass, or mapping the status is caught by the surrounding
try/catch and returned as the 400 "Error retrieving workflow details" response
(lines 297-306). Otherwise the 200 response is built (lines 285-295). -/
def handleWorkflowShowRequest (meta : WorkflowMeta) (events : List RawEvent) :
    ApiResult :=
  match meta.iwfWorkflowType with
  | none =>
      ApiResult.failure 400 "Not an iWF workflow execution" "TEMPORAL_API_ERROR"
  | some workflowType =>
    match events with
    | RawEvent.workflowExecutionStarted input :: rest =>
      match processEvents (initialState input) rest with
      | Except.error _ =>
          ApiResult.failure 400 "Error retrieving workflow details"
            "TEMPORAL_API_ERROR"
      | Except.ok st =>
        match meta.statusCode with
        | none =>
            ApiResult.success 200
              { workflowStartedTimestamp := meta.startTimeSeconds
              , workflowType := workflowType
              , status := none
              , input := input
              , historyEvents := st.historyEvents }
        | some code =>
          match mapTemporalStatus code with
          | Except.error _ =>
              ApiResult.failure 400 "Error retrieving workflow details"
                "TEMPORAL_API_ERROR"
          | Except.ok ws =>
              ApiResult.success 200
                { workflowStartedTimestamp := meta.startTimeSeconds
                , workflowType := workflowType
                , status := some ws
                , input := input
                , historyEvents := st.historyEvents }
    | _ =>
        ApiResult.failure 400 "Error retrieving workflow details"
          "TEMPORAL_API_ERROR"

/-! Helper constructors for stating properties about scheduled events. -/

/-- The data of one scheduled iWF activity used in property statements: the state
execution id, activity id, event time and state input of an
`activityTaskScheduled` raw event. -/
structure SchedSpec where
  stateExecutionId : String
  activityId : String
  timeSeconds : Int
  stateInput : String
deriving DecidableEq

/-- An `activityTaskScheduled` raw event of type `StateApiWaitUntil` for state
identifier `sid`. -/
def mkWaitEvent (sid : String) (w : SchedSpec) : RawEvent :=
  RawEvent.activityTaskScheduled
    ⟨w.activityId, ActivityType.stateApiWaitUntil, w.timeSeconds, sid,
     w.stateExecutionId, w.stateInput⟩

/-- An `activityTaskScheduled` raw event of type `StateApiExecute` for state
identifier `sid`. -/
def mkExecuteEvent (sid : String) (w : SchedSpec) : RawEvent :=
  RawEvent.activityTaskScheduled
    ⟨w.activityId, ActivityType.stateApiExecute, w.timeSeconds, sid,
     w.stateExecutionId, w.stateInput⟩

/-- A run of `StateApiWaitUntil` scheduled events, all referencing state
identifier `sid`. -/
def waitEventsFor (sid : String) (specs : List SchedSpec) : List RawEvent :=
  specs.map (mkWaitEvent sid)

/-- No state identifier is mapped to an empty pending-origin queue. -/
def noEmptyQueues (st : RecState) : Prop :=
  ∀ sid, st.fromStateLookup.mapGet sid ≠ some []

/-! Basic lemmas about the JavaScript map model. -/

theorem mapGet_mapSet {α : Type} (m : JsMap α) (k q : String) (v : α) :
    (m.mapSet k v).mapGet q = if q = k then some v else m.mapGet q := rfl

theorem mapGet_mapDelete {α : Type} (m : JsMap α) (k q : String) :
    (m.mapDelete k).mapGet q = if q = k then none else m.mapGet q := rfl

theorem mapGet_propAssign {α : Type} (m : JsMap α) (k q : String) (v : α) :
    (m.propAssign k v).mapGet q = m.mapGet q := rfl

/-! Characterization lemmas for the scheduled-event branches. -/

/-- Dispatch equation: a scheduled event whose activity type is
`StateApiWaitUntil` runs the waitUntil branch. -/
theorem processEvent_waitUntil (st : RecState) (attrs : ScheduledAttrs)
    (h : attrs.activityType = ActivityType.stateApiWaitUntil) :
    processEvent st (RawEvent.activityTaskScheduled attrs) =
      processScheduledWaitUntil st attrs := by
  obtain ⟨a, ty, t, s1, s2, s3⟩ := attrs
  subst h
  rfl

/-- Dispatch equation: a scheduled event whose activity type is
`StateApiExecute` runs the execute branch. -/
theorem processEvent_execute (st : RecState) (attrs : ScheduledAttrs)
    (h : attrs.activityType = ActivityType.stateApiExecute) :
    processEvent st (RawEvent.activityTaskScheduled attrs) =
      processScheduledExecute st attrs := by
  obtain ⟨a, ty, t, s1, s2, s3⟩ := attrs
  subst h
  rfl

/-- Successful waitUntil step: with a non-empty pending-origin queue for the
event's state identifier, the head origin is consumed, the queue entry is
deleted when emptied, and a `StateWaitUntil` record carrying the head origin's
index and options is appended. -/
theorem processScheduledWaitUntil_cons (st : RecState) (attrs : ScheduledAttrs)
    (fr : IndexAndStateOption) (rest : List IndexAndStateOption)
    (h : st.fromStateLookup.mapGet attrs.workflowStateId = some (fr :: rest)) :
    processScheduledWaitUntil st attrs = Except.ok
      { st with
        fromStateLookup :=
          if rest.length = 0 then
            st.fromStateLookup.mapDelete attrs.workflowStateId
          else
            st.fromStateLookup.mapSet attrs.workflowStateId rest
      , historyActivityIdLookup :=
          st.historyActivityIdLookup.propAssign attrs.activityId
            st.historyEvents.length
      , stateExecutionIdToWaitUntilIndex :=
          st.stateExecutionIdToWaitUntilIndex.propAssign attrs.stateExecutionId
            st.historyEvents.length
      , historyEvents :=
          st.historyEvents ++ [IwfHistoryEvent.stateWaitUntil
            ⟨attrs.stateExecutionId, attrs.workflowStateId, attrs.stateInput,
             fr.index, fr.option, attrs.activityId, attrs.eventTimeSeconds,
             none⟩] } := by
  unfold processScheduledWaitUntil
  rw [h]

/-- A waitUntil scheduled event whose state identifier has no pending origin
(absent map entry or empty queue) throws. -/
theorem processScheduledWaitUntil_noOrigin (st : RecState)
    (attrs : ScheduledAttrs)
    (hq : st.fromStateLookup.mapGet attrs.workflowStateId = none ∨
      st.fromStateLookup.mapGet attrs.workflowStateId = some []) :
    ∃ err, processScheduledWaitUntil st attrs = Except.error err := by
  unfold processScheduledWaitUntil
  rcases hq with hq | hq <;> rw [hq] <;> exact ⟨_, rfl⟩

/-- An execute scheduled event with no recorded waitUntil entry for its state
execution id and no pending origin for its state identifier throws. -/
theorem processScheduledExecute_noOrigin (st : RecState)
    (attrs : ScheduledAttrs)
    (hw : st.stateExecutionIdToWaitUntilIndex.mapGet attrs.stateExecutionId =
      none)
    (hq : st.fromStateLookup.mapGet attrs.workflowStateId = none ∨
      st.fromStateLookup.mapGet attrs.workflowStateId = some []) :
    ∃ err, processScheduledExecute st attrs = Except.error err := by
  unfold processScheduledExecute
  rw [hw]
  rcases hq with hq | hq <;> rw [hq] <;> exact ⟨_, rfl⟩

/-- Successful execute step via a recorded waitUntil entry: the referenced
trace record supplies the options, the pending-origin queues are untouched, and
a `StateExecute` record pointing at the recorded index is appended. -/
theorem processScheduledExecute_viaWait (st : RecState) (attrs : ScheduledAttrs)
    (fromEvent : Nat) (wev : IwfHistoryEvent)
    (hw : st.stateExecutionIdToWaitUntilIndex.mapGet attrs.stateExecutionId =
      some fromEvent)
    (hhe : st.historyEvents[fromEvent]? = some wev) :
    processScheduledExecute st attrs = Except.ok
      { st with
        historyActivityIdLookup :=
          st.historyActivityIdLookup.propAssign attrs.activityId
            st.historyEvents.length
      , historyEvents :=
          st.historyEvents ++ [IwfHistoryEvent.stateExecute
            ⟨attrs.stateExecutionId, attrs.workflowStateId, attrs.stateInput,
             Int.ofNat fromEvent, waitOptionsOf wev,
             attrs.activityId, attrs.eventTimeSeconds, none⟩] } := by
  simp only [processScheduledExecute, hw, hhe]

/-- An execute step via a recorded waitUntil entry whose index is out of range
of the output trace throws. -/
theorem processScheduledExecute_viaWait_outOfRange (st : RecState)
    (attrs : ScheduledAttrs) (fromEvent : Nat)
    (hw : st.stateExecutionIdToWaitUntilIndex.mapGet attrs.stateExecutionId =
      some fromEvent)
    (hhe : st.historyEvents[fromEvent]? = none) :
    processScheduledExecute st attrs = Except.error (JsError.typeError
      "Cannot read properties of undefined (reading stateWaitUntil)") := by
  simp only [processScheduledExecute, hw, hhe]

/-- Successful execute step through the pending-origin queue: with no recorded
waitUntil entry and a non-empty queue, the head origin is consumed exactly as in
the waitUntil branch and a `StateExecute` record carrying it is appended. -/
theorem processScheduledExecute_cons (st : RecState) (attrs : ScheduledAttrs)
    (fr : IndexAndStateOption) (rest : List IndexAndStateOption)
    (hw : st.stateExecutionIdToWaitUntilIndex.mapGet attrs.stateExecutionId =
      none)
    (hq : st.fromStateLookup.mapGet attrs.workflowStateId = some (fr :: rest)) :
    processScheduledExecute st attrs = Except.ok
      { st with
        fromStateLookup :=
          if rest.length = 0 then
            st.fromStateLookup.mapDelete attrs.workflowStateId
          else
            st.fromStateLookup.mapSet attrs.workflowStateId rest
      , historyActivityIdLookup :=
          st.historyActivityIdLookup.propAssign attrs.activityId
            st.historyEvents.length
      , historyEvents :=
          st.historyEvents ++ [IwfHistoryEvent.stateExecute
            ⟨attrs.stateExecutionId, attrs.workflowStateId, attrs.stateInput,
             fr.index, fr.option, attrs.activityId, attrs.eventTimeSeconds,
             none⟩] } := by
  unfold processScheduledExecute
  rw [hw, hq]

/-- Consuming the head of a pending-origin queue (delete the entry when the
tail is empty, store the tail otherwise) preserves the absence of empty
queues. -/
theorem consumeQueue_noEmpty (st : RecState) (wsid : String)
    (rest : List IndexAndStateOption) (hne : noEmptyQueues st) :
    ∀ sid, (if rest.length = 0 then st.fromStateLookup.mapDelete wsid
        else st.fromStateLookup.mapSet wsid rest).mapGet sid ≠ some [] := by
  intro sid
  by_cases hr : rest.length = 0
  · rw [if_pos hr, mapGet_mapDelete]
    by_cases hsid : sid = wsid
    · rw [if_pos hsid]
      simp
    · rw [if_neg hsid]
      exact hne sid
  · rw [if_neg hr, mapGet_mapSet]
    by_cases hsid : sid = wsid
    · rw [if_pos hsid]
      intro hcontra
      exact hr (by rw [Option.some.inj hcontra]; rfl)
    · rw [if_neg hsid]
      exact hne sid

/-- Induction worker for the FIFO pairing property: running one waitUntil
scheduled event per pending origin of a state identifier appends one
`StateWaitUntil` record per origin, pairing the i-th event with the i-th queued
origin, and ends with the queue entry removed. -/
theorem waitFifoAux (specs : List SchedSpec) :
    ∀ (st : RecState) (sid : String) (os : List IndexAndStateOption),
      specs.length = os.length →
      (os = [] → st.fromStateLookup.mapGet sid = none) →
      (os ≠ [] → st.fromStateLookup.mapGet sid = some os) →
      ∃ (st1 : RecState) (newRecs : List IwfHistoryEvent),
        processEvents st (waitEventsFor sid specs) = Except.ok st1 ∧
        st1.historyEvents = st.historyEvents ++ newRecs ∧
        newRecs.length = os.length ∧
        st1.fromStateLookup.mapGet sid = none ∧
        (∀ i, i < os.length →
          ∃ d, newRecs[i]? = some (IwfHistoryEvent.stateWaitUntil d) ∧
            os[i]? = some ⟨d.fromEventId, d.stateOptions⟩) := by
  induction specs with
  | nil =>
    intro st sid os hlen h0 _
    have hos : os = [] := by
      cases os with
      | nil => rfl
      | cons o os' => simp at hlen
    subst hos
    refine ⟨st, [], rfl, by simp, rfl, h0 rfl, ?_⟩
    intro i hi
    simp at hi
  | cons w ws ih =>
    intro st sid os hlen h0 h1
    cases os with
    | nil => simp at hlen
    | cons o os' =>
      have hget : st.fromStateLookup.mapGet sid = some (o :: os') :=
        h1 (by simp)
      have hstep : processEvent st (mkWaitEvent sid w) = Except.ok
          { st with
            fromStateLookup :=
              if os'.length = 0 then st.fromStateLookup.mapDelete sid
              else st.fromStateLookup.mapSet sid os'
          , historyActivityIdLookup :=
              st.historyActivityIdLookup.propAssign w.activityId
                st.historyEvents.length
          , stateExecutionIdToWaitUntilIndex :=
              st.stateExecutionIdToWaitUntilIndex.propAssign
                w.stateExecutionId st.historyEvents.length
          , historyEvents :=
              st.historyEvents ++ [IwfHistoryEvent.stateWaitUntil
                ⟨w.stateExecutionId, sid, w.stateInput, o.index, o.option,
                 w.activityId, w.timeSeconds, none⟩] } :=
        processScheduledWaitUntil_cons st
          ⟨w.activityId, ActivityType.stateApiWaitUntil, w.timeSeconds, sid,
           w.stateExecutionId, w.stateInput⟩ o os' hget
      have hrun : processEvents st (waitEventsFor sid (w :: ws)) =
          processEvents
            { st with
              fromStateLookup :=
                if os'.length = 0 then st.fromStateLookup.mapDelete sid
                else st.fromStateLookup.mapSet sid os'
            , historyActivityIdLookup :=
                st.historyActivityIdLookup.propAssign w.activityId
                  st.historyEvents.length
            , stateExecutionIdToWaitUntilIndex :=
                st.stateExecutionIdToWaitUntilIndex.propAssign
                  w.stateExecutionId st.historyEvents.length
            , historyEvents :=
                st.historyEvents ++ [IwfHistoryEvent.stateWaitUntil
                  ⟨w.stateExecutionId, sid, w.stateInput, o.index, o.option,
                   w.activityId, w.timeSeconds, none⟩] }
            (waitEventsFor sid ws) := by
        show (match processEvent st (mkWaitEvent sid w) with
              | Except.ok s => processEvents s (waitEventsFor sid ws)
              | Except.error err => Except.error err) = _
        rw [hstep]
      have hlen' : ws.length = os'.length := by simpa using hlen
      have h0' : os' = [] →
          (if os'.length = 0 then st.fromStateLookup.mapDelete sid
            else st.fromStateLookup.mapSet sid os').mapGet sid = none := by
        intro h
        subst h
        show (st.fromStateLookup.mapDelete sid).mapGet sid = none
        rw [mapGet_mapDelete, if_pos rfl]
      have h1' : os' ≠ [] →
          (if os'.length = 0 then st.fromStateLookup.mapDelete sid
            else st.fromStateLookup.mapSet sid os').mapGet sid = some os' := by
        intro h
        have hr : ¬os'.length = 0 := fun hc => h (List.length_eq_zero.mp hc)
        rw [if_neg hr, mapGet_mapSet, if_pos rfl]
      obtain ⟨st1, newRecs, hrun2, hhist, hlen2, hnone, hidx⟩ :=
        ih { st with
              fromStateLookup :=
                if os'.length = 0 then st.fromStateLookup.mapDelete sid
                else st.fromStateLookup.mapSet sid os'
            , historyActivityIdLookup :=
                st.historyActivityIdLookup.propAssign w.activityId
                  st.historyEvents.length
            , stateExecutionIdToWaitUntilIndex :=
                st.stateExecutionIdToWaitUntilIndex.propAssign
                  w.stateExecutionId st.historyEvents.length
            , historyEvents :=
                st.historyEvents ++ [IwfHistoryEvent.stateWaitUntil
                  ⟨w.stateExecutionId, sid, w.stateInput, o.index, o.option,
                   w.activityId, w.timeSeconds, none⟩] }
          sid os' hlen' h0' h1'
      refine ⟨st1,
        IwfHistoryEvent.stateWaitUntil
          ⟨w.stateExecutionId, sid, w.stateInput, o.index, o.option,
           w.activityId, w.timeSeconds, none⟩ :: newRecs,
        ?_, ?_, ?_, hnone, ?_⟩
      · rw [hrun]
        exact hrun2
      · rw [hhist]
        simp [List.append_assoc]
      · simp [hlen2]
      · intro i hi
        cases i with
        | zero =>
          refine ⟨⟨w.stateExecutionId, sid, w.stateInput, o.index, o.option,
            w.activityId, w.timeSeconds, none⟩, ?_, ?_⟩
          · simp
          · simp
        | succ j =>
          have hj : j < os'.length := by
            simp only [List.length_cons] at hi
            omega
          obtain ⟨d, hd1, hd2⟩ := hidx j hj
          exact ⟨d, by simpa using hd1, by simpa using hd2⟩

/-! Claim theorems. -/

/-- C7: for the raw input sequence consisting of the workflow-start event with
start state "A" followed by a single `StateApiExecute` scheduled event with
state id "A" and state execution id "A-1", reconstruction returns exactly one
`StateExecute` trace record with state id "A", state execution id "A-1" and
`fromEventId = -1`, the workflow-start sentinel seeded for the declared initial
state. -/
theorem singleExecuteUsesStartSentinel :
    reconstructFromHistory
      [RawEvent.workflowExecutionStarted ⟨"A", none, "w"⟩,
       mkExecuteEvent "A" ⟨"A-1", "act1", 5, "in0"⟩] =
    Except.ok [IwfHistoryEvent.stateExecute
      ⟨"A-1", "A", "in0", -1, none, "act1", 5, none⟩] := rfl

/-- C1: the wait-to-execute inheritance path is dead code. After the waitUntil
step, the wait's trace index was stored on `stateExecutionIdToWaitUntilIndex`
with a bracket assignment, which creates an object property rather than a Map
entry, so `mapHas` still answers `false` for the recorded state execution id
(second conjunct). The following execute event for the same state execution id
therefore falls back to the pending-origin queue, which the wait already
emptied, and the whole reconstruction aborts with a thrown `TypeError` instead
of appending an `ExecutePhase` inheriting the wait's origin (first
conjunct). -/
theorem stateExecuteDoesNotInheritRecordedWait :
    (processEvents (initialState ⟨"A", none, "w"⟩)
        [mkWaitEvent "A" ⟨"A-1", "act1", 5, "i1"⟩,
         mkExecuteEvent "A" ⟨"A-1", "act2", 6, "i2"⟩] =
      Except.error (JsError.typeError
        "Cannot read properties of undefined (reading 0)")) ∧
    ((processEvents (initialState ⟨"A", none, "w"⟩)
        [mkWaitEvent "A" ⟨"A-1", "act1", 5, "i1"⟩]).map
      (fun st => (st.stateExecutionIdToWaitUntilIndex.mapHas "A-1",
                  st.stateExecutionIdToWaitUntilIndex.props "A-1")) =
      Except.ok (false, some 0)) :=
  ⟨rfl, rfl⟩

/-- C4: `activityTaskCompleted` and `activityTaskFailed` events never update any
trace record: the handler only logs them, leaving the reconstruction state
unchanged (first two conjuncts, which also show they are non-fatal and the pass
continues). Concretely, after a waitUntil record for activity id "act1" is
appended, a completion event for "act1" leaves the record's `completedTime`
absent (third conjunct). -/
theorem completionEventsDoNotUpdateRecords :
    (∀ (st : RecState) (aid : String) (t : Int),
        processEvent st (RawEvent.activityTaskCompleted aid t) =
          Except.ok st) ∧
    (∀ (st : RecState) (aid : String) (t : Int),
        processEvent st (RawEvent.activityTaskFailed aid t) = Except.ok st) ∧
    reconstructFromHistory
        [RawEvent.workflowExecutionStarted ⟨"A", none, "w"⟩,
         mkWaitEvent "A" ⟨"A-1", "act1", 5, "i1"⟩,
         RawEvent.activityTaskCompleted "act1" 9] =
      Except.ok [IwfHistoryEvent.stateWaitUntil
        ⟨"A-1", "A", "i1", -1, none, "act1", 5, none⟩] :=
  ⟨fun _ _ _ => rfl, fun _ _ _ => rfl, rfl⟩

/-- C5 counterexample: a raw sequence containing a `workflowExecutionSignaled`
and a `workflowExecutionCompleted` event reconstructs to an empty output trace:
no marker entry is appended for either event, contradicting the claim that each
such event appends a marker trace entry. -/
theorem signalProducesNoMarkerRecord :
    reconstructFromHistory
      [RawEvent.workflowExecutionStarted ⟨"A", none, "w"⟩,
       RawEvent.workflowExecutionSignaled 5,
       RawEvent.workflowExecutionCompleted 9] = Except.ok [] := rfl

/-- C5 amended: `workflowExecutionSignaled`, `workflowExecutionCompleted` and
`workflowExecutionFailed` events append nothing to the output trace: the handler
only logs them and continues with the state unchanged. -/
theorem markerEventsAreSkipped :
    ∀ (st : RecState) (t : Int),
      processEvent st (RawEvent.workflowExecutionSignaled t) = Except.ok st ∧
      processEvent st (RawEvent.workflowExecutionCompleted t) = Except.ok st ∧
      processEvent st (RawEvent.workflowExecutionFailed t) = Except.ok st :=
  fun _ _ => ⟨rfl, rfl, rfl⟩

/-- C9: the reconstruction handler is deterministic: on equal workflow metadata
and byte-identical raw event sequences it produces identical outputs (it is a
pure fold with no hidden inputs). -/
theorem reconstructionDeterministic :
    ∀ (m1 m2 : WorkflowMeta) (ev1 ev2 : List RawEvent),
      m1 = m2 → ev1 = ev2 →
      handleWorkflowShowRequest m1 ev1 = handleWorkflowShowRequest m2 ev2 := by
  intro m1 m2 ev1 ev2 hm he
  subst hm
  subst he
  rfl

/-- Witness for C9: the determinism theorem applied to a concrete metadata value
and a concrete two-event history. -/
theorem reconstructionDeterministicWitness :
    handleWorkflowShowRequest ⟨some "T", 3, some "2"⟩
        [RawEvent.workflowExecutionStarted ⟨"A", none, "w"⟩,
         mkExecuteEvent "A" ⟨"A-1", "act1", 5, "in0"⟩] =
      handleWorkflowShowRequest ⟨some "T", 3, some "2"⟩
        [RawEvent.workflowExecutionStarted ⟨"A", none, "w"⟩,
         mkExecuteEvent "A" ⟨"A-1", "act1", 5, "in0"⟩] :=
  reconstructionDeterministic _ _ _ _ rfl rfl

/-- C2: FIFO pairing. For a state identifier whose pending-origin queue holds N
origins, processing N `StateApiWaitUntil` scheduled events referencing that
state identifier succeeds and appends N `StateWaitUntil` records, where the
i-th appended record carries exactly the i-th queued origin's event index and
options; afterwards the queue entry is gone, every entry having been consumed
exactly once. -/
theorem waitEventsConsumeOriginsFifo (st : RecState) (sid : String)
    (os : List IndexAndStateOption) (specs : List SchedSpec)
    (hne : os ≠ [])
    (hget : st.fromStateLookup.mapGet sid = some os)
    (hlen : specs.length = os.length) :
    ∃ (st1 : RecState) (newRecs : List IwfHistoryEvent),
      processEvents st (waitEventsFor sid specs) = Except.ok st1 ∧
      st1.historyEvents = st.historyEvents ++ newRecs ∧
      newRecs.length = os.length ∧
      st1.fromStateLookup.mapGet sid = none ∧
      (∀ i, i < os.length →
        ∃ d, newRecs[i]? = some (IwfHistoryEvent.stateWaitUntil d) ∧
          os[i]? = some ⟨d.fromEventId, d.stateOptions⟩) :=
  waitFifoAux specs st sid os hlen (fun h => absurd h hne) (fun _ => hget)

/-- Witness for C2: the FIFO pairing theorem applied to the seeded initial
state with its single origin and one concrete waitUntil scheduled event. -/
theorem waitEventsConsumeOriginsFifoWitness :
    ∃ (st1 : RecState) (newRecs : List IwfHistoryEvent),
      processEvents (initialState ⟨"A", none, "w"⟩)
          (waitEventsFor "A" [⟨"A-1", "act1", 5, "i1"⟩]) = Except.ok st1 ∧
      st1.historyEvents = (initialState ⟨"A", none, "w"⟩).historyEvents ++ newRecs ∧
      newRecs.length =
        ([⟨-1, none⟩] : List IndexAndStateOption).length ∧
      st1.fromStateLookup.mapGet "A" = none ∧
      (∀ i, i < ([⟨-1, none⟩] : List IndexAndStateOption).length →
        ∃ d, newRecs[i]? = some (IwfHistoryEvent.stateWaitUntil d) ∧
          ([⟨-1, none⟩] : List IndexAndStateOption)[i]? =
            some ⟨d.fromEventId, d.stateOptions⟩) :=
  waitEventsConsumeOriginsFifo (initialState ⟨"A", none, "w"⟩) "A"
    [⟨-1, none⟩] [⟨"A-1", "act1", 5, "i1"⟩] (by simp) rfl rfl

/-- C3: an `activityTaskScheduled` event of type `StateApiWaitUntil`, or of type
`StateApiExecute` with no recorded waitUntil entry for its state execution id,
whose state identifier has no pending origin (entry absent or queue empty)
makes the pass throw, so no trace record is appended and the remainder of the
reconstruction is aborted (first conjunct); and any error thrown by the pass
surfaces through the handler's catch block as an HTTP 400 response rather than
being silently skipped (second conjunct). -/
theorem noPendingOriginAborts :
    (∀ (st : RecState) (attrs : ScheduledAttrs),
       (attrs.activityType = ActivityType.stateApiWaitUntil ∨
         (attrs.activityType = ActivityType.stateApiExecute ∧
          st.stateExecutionIdToWaitUntilIndex.mapGet attrs.stateExecutionId =
            none)) →
       (st.fromStateLookup.mapGet attrs.workflowStateId = none ∨
        st.fromStateLookup.mapGet attrs.workflowStateId = some []) →
       ∃ err, processEvent st (RawEvent.activityTaskScheduled attrs) =
         Except.error err) ∧
    (∀ (meta : WorkflowMeta) (wt : String) (input : InterpreterWorkflowInput)
       (rest : List RawEvent) (err : JsError),
       meta.iwfWorkflowType = some wt →
       processEvents (initialState input) rest = Except.error err →
       handleWorkflowShowRequest meta
           (RawEvent.workflowExecutionStarted input :: rest) =
         ApiResult.failure 400 "Error retrieving workflow details"
           "TEMPORAL_API_ERROR") := by
  constructor
  · intro st attrs hk hq
    rcases hk with hk | ⟨hk, hw⟩
    · rw [processEvent_waitUntil st attrs hk]
      exact processScheduledWaitUntil_noOrigin st attrs hq
    · rw [processEvent_execute st attrs hk]
      exact processScheduledExecute_noOrigin st attrs hw hq
  · intro meta wt input rest err hm hp
    unfold handleWorkflowShowRequest
    rw [hm]
    simp only [hp]

/-- Witness for C3: the abort theorem applied to the seeded initial state and a
waitUntil event for the unknown state identifier "B", and the 400-surfacing
conjunct applied to concrete metadata and that same failing history. -/
theorem noPendingOriginAbortsWitness :
    (∃ err, processEvent (initialState ⟨"A", none, "w"⟩)
        (RawEvent.activityTaskScheduled
          ⟨"act1", ActivityType.stateApiWaitUntil, 5, "B", "B-1", "i1"⟩) =
      Except.error err) ∧
    handleWorkflowShowRequest ⟨some "T", 3, none⟩
        (RawEvent.workflowExecutionStarted ⟨"A", none, "w"⟩ ::
          [RawEvent.activityTaskScheduled
            ⟨"act1", ActivityType.stateApiWaitUntil, 5, "B", "B-1", "i1"⟩]) =
      ApiResult.failure 400 "Error retrieving workflow details"
        "TEMPORAL_API_ERROR" :=
  ⟨noPendingOriginAborts.1 (initialState ⟨"A", none, "w"⟩)
      ⟨"act1", ActivityType.stateApiWaitUntil, 5, "B", "B-1", "i1"⟩
      (Or.inl rfl) (Or.inl rfl),
   noPendingOriginAborts.2 ⟨some "T", 3, none⟩ "T" ⟨"A", none, "w"⟩
      [RawEvent.activityTaskScheduled
        ⟨"act1", ActivityType.stateApiWaitUntil, 5, "B", "B-1", "i1"⟩]
      (JsError.typeError "Cannot read properties of undefined (reading 0)")
      rfl rfl⟩

/-- C6: the empty-queue deletion invariant. The seeded initial state maps no
state identifier to an empty queue (first conjunct); every successful step of
the pass preserves that property, because a queue emptied by consumption has
its map entry deleted (second conjunct); and a waitUntil scheduled event whose
state identifier has either an absent entry or an empty queue is treated the
same way, namely as "no pending origin": the step throws (third conjunct). -/
theorem emptyQueueDeletionInvariant :
    (∀ input : InterpreterWorkflowInput, noEmptyQueues (initialState input)) ∧
    (∀ (st : RecState) (e : RawEvent) (st1 : RecState),
       noEmptyQueues st → processEvent st e = Except.ok st1 →
       noEmptyQueues st1) ∧
    (∀ (st : RecState) (attrs : ScheduledAttrs),
       attrs.activityType = ActivityType.stateApiWaitUntil →
       (st.fromStateLookup.mapGet attrs.workflowStateId = none ∨
        st.fromStateLookup.mapGet attrs.workflowStateId = some []) →
       ∃ err, processEvent st (RawEvent.activityTaskScheduled attrs) =
         Except.error err) := by
  refine ⟨?_, ?_, ?_⟩
  · intro input sid
    simp only [initialState, JsMap.mapGet, JsMap.mapSet, JsMap.emptyMap]
    split
    · simp
    · simp
  · intro st e st1 hne hok
    cases e with
    | activityTaskScheduled attrs =>
      obtain ⟨aid, ty, t, wsid, seid, sinp⟩ := attrs
      cases ty with
      | stateApiWaitUntil =>
        rw [processEvent_waitUntil _ _ rfl] at hok
        rcases hget : st.fromStateLookup.mapGet wsid with _ | lookup
        · rcases processScheduledWaitUntil_noOrigin st
            ⟨aid, ActivityType.stateApiWaitUntil, t, wsid, seid, sinp⟩ (Or.inl hget) with
            ⟨err, herr⟩
          rw [herr] at hok
          exact Except.noConfusion hok
        · rcases lookup with _ | ⟨fr, rest⟩
          · rcases processScheduledWaitUntil_noOrigin st
              ⟨aid, ActivityType.stateApiWaitUntil, t, wsid, seid, sinp⟩ (Or.inr hget) with
              ⟨err, herr⟩
            rw [herr] at hok
            exact Except.noConfusion hok
          · rw [processScheduledWaitUntil_cons st
              ⟨aid, ActivityType.stateApiWaitUntil, t, wsid, seid, sinp⟩ fr rest hget] at hok
            simp only [Except.ok.injEq] at hok
            subst hok
            exact consumeQueue_noEmpty st wsid rest hne
      | stateApiExecute =>
        rw [processEvent_execute _ _ rfl] at hok
        rcases hw : st.stateExecutionIdToWaitUntilIndex.mapGet seid with
          _ | fromEvent
        · rcases hget : st.fromStateLookup.mapGet wsid with _ | lookup
          · rcases processScheduledExecute_noOrigin st
              ⟨aid, ActivityType.stateApiExecute, t, wsid, seid, sinp⟩ hw (Or.inl hget) with
              ⟨err, herr⟩
            rw [herr] at hok
            exact Except.noConfusion hok
          · rcases lookup with _ | ⟨fr, rest⟩
            · rcases processScheduledExecute_noOrigin st
                ⟨aid, ActivityType.stateApiExecute, t, wsid, seid, sinp⟩ hw (Or.inr hget)
                with ⟨err, herr⟩
              rw [herr] at hok
              exact Except.noConfusion hok
            · rw [processScheduledExecute_cons st
                ⟨aid, ActivityType.stateApiExecute, t, wsid, seid, sinp⟩ fr rest hw hget] at hok
              simp only [Except.ok.injEq] at hok
              subst hok
              exact consumeQueue_noEmpty st wsid rest hne
        · rcases hhe : st.historyEvents[fromEvent]? with _ | wev
          · rw [processScheduledExecute_viaWait_outOfRange st
              ⟨aid, ActivityType.stateApiExecute, t, wsid, seid, sinp⟩ fromEvent hw hhe] at hok
            exact Except.noConfusion hok
          · rw [processScheduledExecute_viaWait st
              ⟨aid, ActivityType.stateApiExecute, t, wsid, seid, sinp⟩ fromEvent wev hw hhe] at hok
            simp only [Except.ok.injEq] at hok
            subst hok
            exact hne
      | otherType n =>
        simp only [processEvent] at hok
        simp only [Except.ok.injEq] at hok
        subst hok
        exact hne
    | workflowExecutionStarted input =>
      simp only [processEvent, Except.ok.injEq] at hok
      subst hok
      exact hne
    | activityTaskCompleted aid t =>
      simp only [processEvent, Except.ok.injEq] at hok
      subst hok
      exact hne
    | activityTaskFailed aid t =>
      simp only [processEvent, Except.ok.injEq] at hok
      subst hok
      exact hne
    | workflowExecutionSignaled t =>
      simp only [processEvent, Except.ok.injEq] at hok
      subst hok
      exact hne
    | workflowExecutionCompleted t =>
      simp only [processEvent, Except.ok.injEq] at hok
      subst hok
      exact hne
    | workflowExecutionFailed t =>
      simp only [processEvent, Except.ok.injEq] at hok
      subst hok
      exact hne
    | otherEvent =>
      simp only [processEvent, Except.ok.injEq] at hok
      subst hok
      exact hne
  · intro st attrs hk hq
    rw [processEvent_waitUntil st attrs hk]
    exact processScheduledWaitUntil_noOrigin st attrs hq

/-- Witness for C6: the invariant theorem's preservation conjunct applied to
the seeded initial state (whose no-empty-queue property comes from the first
conjunct) and one concrete waitUntil step that empties and deletes the "A"
queue. -/
theorem emptyQueueDeletionInvariantWitness :
    noEmptyQueues
      { fromStateLookup :=
          ((JsMap.emptyMap.mapSet "A"
            [⟨-1, none⟩]).mapDelete "A" : JsMap (List IndexAndStateOption))
      , historyActivityIdLookup := JsMap.emptyMap.propAssign "act1" 0
      , stateExecutionIdToWaitUntilIndex := JsMap.emptyMap.propAssign "A-1" 0
      , historyEvents := [IwfHistoryEvent.stateWaitUntil
          ⟨"A-1", "A", "i1", -1, none, "act1", 5, none⟩] } :=
  emptyQueueDeletionInvariant.2.1 (initialState ⟨"A", none, "w"⟩)
    (mkWaitEvent "A" ⟨"A-1", "act1", 5, "i1"⟩) _
    (emptyQueueDeletionInvariant.1 ⟨"A", none, "w"⟩) rfl

/-- C8: the status mapper is a closed enumeration. Every input whose normalized
form is outside the fixed set of accepted codes reaches the throwing default
branch (first conjunct); in particular the input "99" fails (second conjunct);
and every successful result is one of the seven fixed labels, never a silent
default (third conjunct). -/
theorem mapTemporalStatusClosedSet :
    (∀ s : String, normalizeStatus s ∉ acceptedCodes →
       ∃ e, mapTemporalStatus s = Except.error e) ∧
    (∃ e, mapTemporalStatus "99" = Except.error e) ∧
    (∀ (s : String) (l : WorkflowStatus), mapTemporalStatus s = Except.ok l →
       l ∈ [WorkflowStatus.RUNNING, WorkflowStatus.COMPLETED,
            WorkflowStatus.FAILED, WorkflowStatus.CANCELED,
            WorkflowStatus.TERMINATED, WorkflowStatus.CONTINUED_AS_NEW,
            WorkflowStatus.TIMEOUT]) := by
  refine ⟨?_, ⟨_, rfl⟩, ?_⟩
  · intro s h
    have h1 : ¬normalizeStatus s = "RUNNING" :=
      fun he => h (by rw [he]; decide)
    have h2 : ¬normalizeStatus s = "COMPLETED" :=
      fun he => h (by rw [he]; decide)
    have h3 : ¬normalizeStatus s = "FAILED" :=
      fun he => h (by rw [he]; decide)
    have h4 : ¬normalizeStatus s = "CANCELED" :=
      fun he => h (by rw [he]; decide)
    have h5 : ¬normalizeStatus s = "TERMINATED" :=
      fun he => h (by rw [he]; decide)
    have h6 : ¬normalizeStatus s = "CONTINUED_AS_NEW" :=
      fun he => h (by rw [he]; decide)
    have h7 : ¬normalizeStatus s = "TIMED_OUT" :=
      fun he => h (by rw [he]; decide)
    have h8 : ¬normalizeStatus s = "1" :=
      fun he => h (by rw [he]; decide)
    have h9 : ¬normalizeStatus s = "2" :=
      fun he => h (by rw [he]; decide)
    have h10 : ¬normalizeStatus s = "3" :=
      fun he => h (by rw [he]; decide)
    have h11 : ¬normalizeStatus s = "4" :=
      fun he => h (by rw [he]; decide)
    have h12 : ¬normalizeStatus s = "5" :=
      fun he => h (by rw [he]; decide)
    have h13 : ¬normalizeStatus s = "6" :=
      fun he => h (by rw [he]; decide)
    have h14 : ¬normalizeStatus s = "7" :=
      fun he => h (by rw [he]; decide)
    unfold mapTemporalStatus
    rw [if_neg h1, if_neg h2, if_neg h3, if_neg h4, if_neg h5, if_neg h6,
        if_neg h7, if_neg h8, if_neg h9, if_neg h10, if_neg h11, if_neg h12,
        if_neg h13, if_neg h14]
    exact ⟨_, rfl⟩
  · intro s l _
    cases l <;> simp

/-- Witness for C8: the closed-set theorem applied at the concrete input
"UNKNOWN_99", whose normalization is outside the accepted codes. -/
theorem mapTemporalStatusClosedSetWitness :
    ∃ e, mapTemporalStatus "UNKNOWN_99" = Except.error e :=
  mapTemporalStatusClosedSet.1 "UNKNOWN_99" (by decide)

/-- C10: the status mapper normalizes before matching. For each of the seven
symbolic names, the name itself, its lowercase form and the
`WORKFLOW_EXECUTION_STATUS_`-prefixed form map to the same label; the numeric
codes "1" through "7" are aliases for the seven labels (both "TIMED_OUT" and
"7" map to `TIMEOUT`); and surrounding whitespace is trimmed. -/
theorem mapTemporalStatusNormalization :
    (mapTemporalStatus "RUNNING" = Except.ok WorkflowStatus.RUNNING ∧
     mapTemporalStatus "running" = Except.ok WorkflowStatus.RUNNING ∧
     mapTemporalStatus "WORKFLOW_EXECUTION_STATUS_RUNNING" =
       Except.ok WorkflowStatus.RUNNING) ∧
    (mapTemporalStatus "COMPLETED" = Except.ok WorkflowStatus.COMPLETED ∧
     mapTemporalStatus "completed" = Except.ok WorkflowStatus.COMPLETED ∧
     mapTemporalStatus "WORKFLOW_EXECUTION_STATUS_COMPLETED" =
       Except.ok WorkflowStatus.COMPLETED) ∧
    (mapTemporalStatus "FAILED" = Except.ok WorkflowStatus.FAILED ∧
     mapTemporalStatus "failed" = Except.ok WorkflowStatus.FAILED ∧
     mapTemporalStatus "WORKFLOW_EXECUTION_STATUS_FAILED" =
       Except.ok WorkflowStatus.FAILED) ∧
    (mapTemporalStatus "CANCELED" = Except.ok WorkflowStatus.CANCELED ∧
     mapTemporalStatus "canceled" = Except.ok WorkflowStatus.CANCELED ∧
     mapTemporalStatus "WORKFLOW_EXECUTION_STATUS_CANCELED" =
       Except.ok WorkflowStatus.CANCELED) ∧
    (mapTemporalStatus "TERMINATED" = Except.ok WorkflowStatus.TERMINATED ∧
     mapTemporalStatus "terminated" = Except.ok WorkflowStatus.TERMINATED ∧
     mapTemporalStatus "WORKFLOW_EXECUTION_STATUS_TERMINATED" =
       Except.ok WorkflowStatus.TERMINATED) ∧
    (mapTemporalStatus "CONTINUED_AS_NEW" =
       Except.ok WorkflowStatus.CONTINUED_AS_NEW ∧
     mapTemporalStatus "continued_as_new" =
       Except.ok WorkflowStatus.CONTINUED_AS_NEW ∧
     mapTemporalStatus "WORKFLOW_EXECUTION_STATUS_CONTINUED_AS_NEW" =
       Except.ok WorkflowStatus.CONTINUED_AS_NEW) ∧
    (mapTemporalStatus "TIMED_OUT" = Except.ok WorkflowStatus.TIMEOUT ∧
     mapTemporalStatus "timed_out" = Except.ok WorkflowStatus.TIMEOUT ∧
     mapTemporalStatus "WORKFLOW_EXECUTION_STATUS_TIMED_OUT" =
       Except.ok WorkflowStatus.TIMEOUT) ∧
    (mapTemporalStatus "1" = Except.ok WorkflowStatus.RUNNING ∧
     mapTemporalStatus "2" = Except.ok WorkflowStatus.COMPLETED ∧
     mapTemporalStatus "3" = Except.ok WorkflowStatus.FAILED ∧
     mapTemporalStatus "4" = Except.ok WorkflowStatus.CANCELED ∧
     mapTemporalStatus "5" = Except.ok WorkflowStatus.TERMINATED ∧
     mapTemporalStatus "6" = Except.ok WorkflowStatus.CONTINUED_AS_NEW ∧
     mapTemporalStatus "7" = Except.ok WorkflowStatus.TIMEOUT) ∧
    mapTemporalStatus "  running  " = Except.ok WorkflowStatus.RUNNING :=
  ⟨⟨rfl, rfl, rfl⟩, ⟨rfl, rfl, rfl⟩, ⟨rfl, rfl, rfl⟩, ⟨rfl, rfl, rfl⟩,
   ⟨rfl, rfl, rfl⟩, ⟨rfl, rfl, rfl⟩, ⟨rfl, rfl, rfl⟩,
   ⟨rfl, rfl, rfl, rfl, rfl, rfl, rfl⟩, rfl⟩

end IwfWeb
